import Mathlib

/-!
Verification development for the SE iterative agent orchestration engine.

Shallow embedding of the parts of the code base relevant to the checked
properties:

* `SE/test/converter_old.py` — `TrajectoryReorganizer._truncate_text`,
  `_truncate_tool_content` and `_create_tra_file` (trajectory compressor);
* `SE/core/utils/traj_pool_manager.py` — `TrajPoolManager` (trajectory pool);
* `SE/core/utils/instance_data_manager.py` — patch loading;
* `SE/se_run.py` — resume logic of the iteration scheduler;
* `SE/operators/base.py` — `TemplateOperator.process` pipeline;
* `SE/operators/alternative_strategy.py` — the alternative operator.

Python strings are modelled as `List Char` where character-level slicing
matters and as `String` elsewhere; JSON/Python values as the inductive
`PyVal`; machine-level file IO as explicit data (file contents passed in,
written files returned).
-/

namespace SE

/- ### Trajectory compressor: `TrajectoryReorganizer` (SE/test/converter_old.py) -/

/-- The literal truncation marker `... [TRUNCATED] ...` used by
`TrajectoryReorganizer._truncate_text`; it is 19 characters long. -/
def truncMarker : List Char := "... [TRUNCATED] ...".data

/-- First-part cap of `_truncate_text`: `max(30, min(150, int(text_length * 0.2)))`.
Python computes `int(L * 0.2)` with binary floats; for every length that fits in a
float's integral range the product rounds so that the truncated result equals
`L / 5` in integer division, which is how it is modelled here. -/
def firstCap (L : Nat) : Nat := max 30 (min 150 (L / 5))

/-- Last-part cap of `_truncate_text`: `max(30, min(100, int(text_length * 0.1)))`,
modelled as `L / 10` (same float-rounding argument as `firstCap`). -/
def lastCap (L : Nat) : Nat := max 30 (min 100 (L / 10))

/-- Embedding of `TrajectoryReorganizer._truncate_text` (converter_old.py lines
72-101) with the default percentages `first_percent=0.2`, `last_percent=0.1`, the
only values the file ever calls it with.  The guard
`truncated_length >= text_length * 0.8` is exact rational arithmetic
(`T >= 0.8 * L  iff  5 * T >= 4 * L`); the float comparison Python performs
agrees with it for all representable lengths.  `text[-last_length:]` is
`drop (L - last_length)` because `last_length <= 100 < 300 <= L` on that path. -/
def truncate_text (text : List Char) : List Char :=
  if text.length < 300 then text
  else
    if (firstCap text.length + lastCap text.length + truncMarker.length) * 5 ≥
        text.length * 4 then text
    else
      text.take (firstCap text.length) ++ truncMarker
        ++ text.drop (text.length - lastCap text.length)

/-- Python/JSON values, as far as the compressor manipulates them:
strings, arrays and objects (dicts keyed by strings). -/
inductive PyVal where
  | pstr (s : List Char)
  | plist (items : List PyVal)
  | pdict (fields : List (List Char × PyVal))

/-- Python dict lookup `d.get(k)` / `d[k]` on a JSON object (keys are unique in
a parsed JSON object, so the first match is the binding). -/
def pyGet (d : List (List Char × PyVal)) (k : List Char) : Option PyVal :=
  (d.find? (fun kv => kv.1 == k)).map (fun kv => kv.2)

/-- Python `k in d` on a dict. -/
def pyHasKey (d : List (List Char × PyVal)) (k : List Char) : Bool :=
  d.any (fun kv => kv.1 == k)

/-- Python truthiness of a string / list / dict value. -/
def pyTruthy : PyVal → Bool
  | .pstr s => !s.isEmpty
  | .plist l => !l.isEmpty
  | .pdict l => !l.isEmpty

/-- Embedding of `TrajectoryReorganizer._truncate_tool_content` (converter_old.py
lines 50-70): a non-empty list whose first element is a dict carrying a string
`text` is collapsed to the truncated text; a plain string is truncated; anything
else (including a list whose head has no string `text`) falls through unchanged. -/
def truncate_tool_content (content : PyVal) : PyVal :=
  if pyTruthy content = false then content
  else
    match content with
    | .plist (PyVal.pdict f :: _) =>
        match pyGet f ("text".data) with
        | some (PyVal.pstr t) => PyVal.pstr (truncate_text t)
        | _ => content
    | .pstr s => PyVal.pstr (truncate_text s)
    | _ => content

/-- Single-quote character (39), kept out of string literals. -/
def sqChar : Char := Char.ofNat 39

/-- Backslash character (92). -/
def bsChar : Char := Char.ofNat 92

/-- Opening and closing braces (123, 125). -/
def obChar : Char := Char.ofNat 123

def cbChar : Char := Char.ofNat 125

/-- Escaping of one character inside a Python single-quoted string repr. -/
def pyEscChar (c : Char) : List Char :=
  if c = bsChar then [bsChar, bsChar]
  else if c = sqChar then [bsChar, sqChar]
  else [c]

/-- Python `repr` of a string, single-quoted form.  Python switches to double
quotes when the string contains a single quote but no double quote and escapes
non-printable characters; those refinements are not modelled (no checked claim
depends on the dict-valued `action` branch that uses this). -/
def pyReprStr (s : List Char) : List Char :=
  sqChar :: s.flatMap pyEscChar ++ [sqChar]

mutual

/-- Python `str`/`repr` of a JSON-like value (used by `_create_tra_file` through
`str(action)` when an `action` is a dict). -/
def pyRepr : PyVal → List Char
  | .pstr s => pyReprStr s
  | .plist items => Char.ofNat 91 :: pyReprItems items ++ [Char.ofNat 93]
  | .pdict fields => obChar :: pyReprFields fields ++ [cbChar]

/-- Comma-separated reprs of the elements of a Python list. -/
def pyReprItems : List PyVal → List Char
  | [] => []
  | [v] => pyRepr v
  | v :: vs => pyRepr v ++ (", ".data) ++ pyReprItems vs

/-- Comma-separated `key: value` reprs of the fields of a Python dict. -/
def pyReprFields : List (List Char × PyVal) → List Char
  | [] => []
  | [kv] => pyReprStr kv.1 ++ (": ".data) ++ pyRepr kv.2
  | kv :: kvs => pyReprStr kv.1 ++ (": ".data) ++ pyRepr kv.2 ++ (", ".data) ++ pyReprFields kvs

end

mutual

/-- Structural equality of JSON-like values (Python `==` restricted to the
comparisons the embedded code performs, always against a string constant). -/
def pyEq : PyVal → PyVal → Bool
  | .pstr a, .pstr b => a == b
  | .plist a, .plist b => pyEqItems a b
  | .pdict a, .pdict b => pyEqFields a b
  | _, _ => false

def pyEqItems : List PyVal → List PyVal → Bool
  | [], [] => true
  | a :: as_, b :: bs => pyEq a b && pyEqItems as_ bs
  | _, _ => false

def pyEqFields : List (List Char × PyVal) → List (List Char × PyVal) → Bool
  | [], [] => true
  | a :: as_, b :: bs => (a.1 == b.1) && pyEq a.2 b.2 && pyEqFields as_ bs
  | _, _ => false

end

instance : BEq PyVal := ⟨pyEq⟩

/-- Python `pat in s` on strings: `pat` occurs contiguously in `s`. -/
def isSubstring (pat : List Char) : List Char → Bool
  | [] => pat.isEmpty
  | c :: rest => pat.isPrefixOf (c :: rest) || isSubstring pat rest

/-- A history entry of a raw `.traj` document.  Per the `.traj` contract a
history entry is a JSON object (a dict); `_create_tra_file` reads it with
`item['role']`, `item.get(...)`-style accesses. -/
abbrev HistoryItem := List (List Char × PyVal)

/-- The `thought`-and-`action` fields kept for an `assistant` entry
(converter_old.py lines 121-140).  `thought` is kept verbatim, never truncated.
A string `action` is truncated when it contains `str_replace_editor` or is
longer than 350 characters; a dict `action` is rendered with `str` and
truncated under the same test, otherwise the dict itself is kept; any other
value is kept as is. -/
def assistantFields (item : HistoryItem) : List (List Char × PyVal) :=
  (match pyGet item ("thought".data) with
   | some t => if pyTruthy t then [(("thought".data), t)] else []
   | none => []) ++
  (match pyGet item ("action".data) with
   | some a =>
     if pyTruthy a then
       match a with
       | .pstr s =>
         if isSubstring ("str_replace_editor".data) s || s.length > 350 then
           [(("action".data), PyVal.pstr (truncate_text s))]
         else [(("action".data), PyVal.pstr s)]
       | .pdict d =>
         let ds := pyRepr (PyVal.pdict d)
         if isSubstring ("str_replace_editor".data) ds || ds.length > 350 then
           [(("action".data), PyVal.pstr (truncate_text ds))]
         else [(("action".data), PyVal.pdict d)]
       | other => [(("action".data), other)]
     else []
   | none => [])

/-- The `content` field kept for a non-`assistant` entry (converter_old.py lines
142-151): kept only if present and truthy, routed through
`_truncate_tool_content` exactly when the role is `tool`. -/
def otherRoleFields (roleVal : PyVal) (item : HistoryItem) : List (List Char × PyVal) :=
  match pyGet item ("content".data) with
  | some c =>
    if pyTruthy c then
      if roleVal == PyVal.pstr ("tool".data) then
        [(("content".data), truncate_tool_content c)]
      else [(("content".data), c)]
    else []
  | none => []

/-- One history entry of `_create_tra_file`: entries without a `role` key are
dropped; assistant entries keep `thought`/`action`, other entries keep
`content`; the simplified entry is emitted only if it retains a field beyond
`role` (`len(simplified_item) > 1`). -/
def simplifyHistoryItem (item : HistoryItem) : Option HistoryItem :=
  match pyGet item ("role".data) with
  | none => none
  | some roleVal =>
    let extra :=
      if roleVal == PyVal.pstr ("assistant".data) then assistantFields item
      else otherRoleFields roleVal item
    if extra.isEmpty then none else some ((("role".data), roleVal) :: extra)

/-- The `Trajectory` array of the `.tra` document `_create_tra_file` produces
from the `history` array of a `.traj` document (converter_old.py lines
103-175).  The token statistics the function also returns are not modelled; no
checked claim concerns them. -/
def create_tra_trajectory (history : List HistoryItem) : List PyVal :=
  history.filterMap (fun item => (simplifyHistoryItem item).map PyVal.pdict)

mutual

/-- All strings occurring in a JSON-like value (field values, array elements,
nested ones included). -/
def pyStrings : PyVal → List (List Char)
  | .pstr s => [s]
  | .plist items => pyStringsItems items
  | .pdict fields => pyStringsFields fields

def pyStringsItems : List PyVal → List (List Char)
  | [] => []
  | v :: vs => pyStrings v ++ pyStringsItems vs

def pyStringsFields : List (List Char × PyVal) → List (List Char)
  | [] => []
  | kv :: kvs => pyStrings kv.2 ++ pyStringsFields kvs

end

/-- Whether some string of a produced `.tra` trajectory is longer than `n`. -/
def anyStringExceeds (doc : List PyVal) (n : Nat) : Bool :=
  (doc.flatMap pyStrings).any (fun s => Nat.blt n s.length)

/-- A one-entry `.traj` history: a `user` turn whose `content` is a string of
270 characters.  `_create_tra_file` copies non-`tool`, non-`assistant` content
verbatim and `_truncate_text` leaves strings shorter than 300 characters
untouched, so the produced `.tra` retains the 270-character string. -/
def c4HistoryDoc : List HistoryItem :=
  [[(("role".data), PyVal.pstr ("user".data)),
    (("content".data), PyVal.pstr (List.replicate 270 (Char.ofNat 97)))]]

/-- A 400-character string, long enough that `_truncate_text` shortens it. -/
def c4LongString : List Char := List.replicate 400 (Char.ofNat 97)

/- ### Trajectory pool: `TrajPoolManager` (SE/core/utils/traj_pool_manager.py) -/

/-- A field value of an iteration summary: the summarizer stores JSON objects
whose fields are strings or lists of strings. -/
inductive JVal where
  | js (v : String)
  | jl (vs : List String)
  deriving DecidableEq

/-- An iteration summary as stored in the pool: a JSON object. -/
abbrev Summary := List (String × JVal)

/-- The pool entry of one instance.  In the `traj.pool` JSON document an
instance maps to an object whose keys are the literal `problem` (a string)
plus string-encoded iteration numbers `str(i)` mapping to summary objects —
the only keys `add_iteration_summary` ever writes.  Distinct iteration numbers
have distinct encodings and no encoding equals `problem` (numerals start with
a digit), so the key space is modelled by an optional `problem` field plus an
insertion-ordered association list over `Nat` iteration keys. -/
structure InstEntry where
  problem : Option String
  summaries : List (Nat × Summary)

/-- The whole pool document: an insertion-ordered JSON object keyed by
instance name. -/
abbrev Pool := List (String × InstEntry)

/-- The empty JSON object an instance is initialised to
(`pool_data[instance_name] = {}`). -/
def emptyEntry : InstEntry := ⟨none, []⟩

/-- Lookup of `d[k]` in an insertion-ordered association list. -/
def assocGet (l : List (Nat × Summary)) (k : Nat) : Option Summary :=
  (l.find? (fun kv => kv.1 == k)).map (fun kv => kv.2)

/-- Python dict assignment `d[k] = v`: replace the binding in place if the key
exists (keys of a dict are unique, so the first occurrence is the binding),
append a new binding otherwise. -/
def assocSet : List (Nat × Summary) → Nat → Summary → List (Nat × Summary)
  | [], k, v => [(k, v)]
  | a :: t, k, v => if a.1 == k then (k, v) :: t else a :: assocSet t k v

/-- Lookup of an instance entry in the pool (`pool_data.get(name)`). -/
def poolGet (pool : Pool) (x : String) : Option InstEntry :=
  (pool.find? (fun e => e.1 == x)).map (fun e => e.2)

/-- The stored summary `pool[x][str(i)]`, if present. -/
def poolIter (pool : Pool) (x : String) (i : Nat) : Option Summary :=
  (poolGet pool x).bind (fun e => assocGet e.summaries i)

/-- The stored problem `pool[x]["problem"]`, if present. -/
def poolProblem (pool : Pool) (x : String) : Option String :=
  (poolGet pool x).bind (fun e => e.problem)

/-- Python truthiness of the optional `problem_description` argument
(default `None`; an empty string is also falsy). -/
def optTruthy : Option String → Bool
  | some s => !s.isEmpty
  | none => false

/-- The entry update `add_iteration_summary` performs once the instance key
exists: insert `problem` only when the key is absent and the argument truthy,
then assign the freshly computed summary at key `str(iteration)`. -/
def updateEntry (iteration : Nat) (summary : Summary) (problem : Option String)
    (e : InstEntry) : InstEntry :=
  { problem := if e.problem.isNone && optTruthy problem then problem else e.problem
  , summaries := assocSet e.summaries iteration summary }

/-- In-place update of the pool binding of one instance
(`pool_data[instance_name] = ...` on a present key; instance keys of a pool
document are unique, so the first occurrence is the binding). -/
def poolUpdate : Pool → String → (InstEntry → InstEntry) → Pool
  | [], _, _ => []
  | e :: t, x, f => if e.1 == x then (e.1, f e.2) :: t else e :: poolUpdate t x f

/-- Embedding of `TrajPoolManager.add_iteration_summary` (traj_pool_manager.py
lines 127-165) acting on the loaded pool document: ensure the instance key
exists (`pool_data[instance_name] = {}` appends a fresh binding), then apply
the entry update of `updateEntry`.  `summarize` stands for
`summarize_trajectory`, whose output is produced by the external LLM client
(or its fallback) from the trajectory content, the patch content and the
iteration number; the method stores whatever object it returns.  The
surrounding `load_pool`/`save_pool` whole-file round trip is the identity on
the document and is modelled by acting on the document directly. -/
def add_iteration_summary (summarize : String → String → Nat → Summary)
    (pool : Pool) (instance_name : String) (iteration : Nat)
    (trajectory_content patch_content : String)
    (problem_description : Option String) : Pool :=
  let pool1 :=
    if pool.any (fun e => e.1 == instance_name) then pool
    else pool ++ [(instance_name, emptyEntry)]
  poolUpdate pool1 instance_name
    (updateEntry iteration
      (summarize trajectory_content patch_content iteration)
      problem_description)

/-- Embedding of `TrajPoolManager.get_pool_stats` (traj_pool_manager.py lines
185-204): `total_iterations` is `sum(len(iterations) for iterations in
pool_data.values())`, and `len` of an instance object counts all its keys —
the `problem` key included when present. -/
structure PoolStats where
  total_instances : Nat
  total_iterations : Nat
  instances : List String

/-- Number of keys of an instance object (`len(pool_data[x])`). -/
def entryLen (e : InstEntry) : Nat :=
  (if e.problem.isSome then 1 else 0) + e.summaries.length

def get_pool_stats (pool : Pool) : PoolStats :=
  { total_instances := pool.length
  , total_iterations := (pool.map (fun e => entryLen e.2)).sum
  , instances := pool.map (fun e => e.1) }

/- ### Pool persistence: `TrajPoolManager.save_pool` -/

/-- The sequence of contents the path `traj.pool` holds while
`TrajPoolManager.save_pool` (traj_pool_manager.py lines 65-75) runs:
`open(self.pool_path, "w", ...)` truncates the existing file in place, then
`json.dump` writes the new document into it.  The observable file states are
therefore the old document, the truncated (empty) file, and the new document
— the code writes the destination directly and performs no write-then-rename
(no temporary file appears anywhere in the method). -/
def save_pool_states (oldDoc newDoc : String) : List String :=
  [oldDoc, "", newDoc]

/- ### Alternative operator (SE/operators/alternative_strategy.py) -/

/-- Single-quote as a one-character string (kept out of string literals). -/
def sqStr : String := String.singleton sqChar

/-- Python `str()` of a summary field value as interpolated by an f-string:
a string interpolates to itself, a list of strings to its bracketed repr. -/
def jShow : JVal → String
  | .js v => v
  | .jl vs => "[" ++ String.intercalate ", " (vs.map (fun v => sqStr ++ v ++ sqStr)) ++ "]"

/-- Python `sep.join(x)`: joining a list joins its elements; joining a string
iterates over its characters. -/
def pyJoin (sep : String) : JVal → String
  | .jl vs => String.intercalate sep vs
  | .js v => String.intercalate sep (v.data.map String.singleton)

/-- Truthiness of `latest_data.get(k)`. -/
def jTruthy : Option JVal → Bool
  | some (.js v) => !v.isEmpty
  | some (.jl vs) => !vs.isEmpty
  | none => false

/-- Lookup of a summary field (`latest_data.get(k)`). -/
def getField (d : Summary) (k : String) : Option JVal :=
  (d.find? (fun kv => kv.1 == k)).map (fun kv => kv.2)

/-- Python `latest_data.get("strategy_status") == "FAILED"` on one value. -/
def pyJValIsFailed : JVal → Bool
  | .js v => v == "FAILED"
  | .jl _ => false

/-- The formatted previous-approach block
`AlternativeStrategyOperator._get_latest_failed_approach` builds from the
selected summary (alternative_strategy.py lines 65-88). -/
def format_latest_approach (d : Summary) : String :=
  String.intercalate "\n"
    (["Strategy: " ++ jShow ((getField d "strategy").getD (JVal.js "N/A"))]
     ++ (if (getField d "strategy_status").any (fun v => pyJValIsFailed v) then
           ["STATUS: FAILED - " ++ jShow ((getField d "failure_reason").getD (JVal.js "Unknown failure"))]
         else [])
     ++ (if jTruthy (getField d "modified_files") then
           ["Modified Files: " ++ pyJoin ", " ((getField d "modified_files").getD (JVal.js ""))]
         else [])
     ++ (if jTruthy (getField d "key_changes") then
           ["Key Changes: " ++ pyJoin "; " ((getField d "key_changes").getD (JVal.js ""))]
         else [])
     ++ (if jTruthy (getField d "tools_used") then
           ["Tools Used: " ++ pyJoin ", " ((getField d "tools_used").getD (JVal.js ""))]
         else [])
     ++ (if jTruthy (getField d "reasoning_pattern") then
           ["Reasoning Pattern: " ++ jShow ((getField d "reasoning_pattern").getD (JVal.js ""))]
         else [])
     ++ (if jTruthy (getField d "assumptions_made") then
           ["Assumptions: " ++ pyJoin "; " ((getField d "assumptions_made").getD (JVal.js ""))]
         else []))

/-- Python `if not approaches_data` on the instance object: an empty dict. -/
def entryFalsy (e : InstEntry) : Bool :=
  e.problem.isNone && e.summaries.isEmpty

/-- The largest iteration key of an instance object (`max(iteration_nums)`);
`0` as a placeholder for the empty list, on which it is never consulted. -/
def maxIterKey (e : InstEntry) : Nat :=
  match e.summaries.map (fun kv => kv.1) with
  | [] => 0
  | n :: ns => ns.foldl max n

/-- Embedding of
`AlternativeStrategyOperator._get_latest_failed_approach`
(alternative_strategy.py lines 48-88): empty data or no iteration keys give
`""`; otherwise the summary at the largest iteration key is formatted.  In the
source the iteration keys are the dict keys other than `problem` that satisfy
`isdigit`, which is exactly the `summaries` component of the model. -/
def get_latest_failed_approach (e : InstEntry) : String :=
  if entryFalsy e then ""
  else
    match e.summaries.map (fun kv => kv.1) with
    | [] => ""
    | _ :: _ => format_latest_approach ((assocGet e.summaries (maxIterKey e)).getD [])

/-- Embedding of `AlternativeStrategyOperator._load_traj_pool`
(alternative_strategy.py lines 25-46): the loop
`for instance_name, instance_data in pool_data.items(): if isinstance(...):
return instance_data` returns the data of the FIRST instance of the pool
document, whatever instance is being processed; an empty pool gives `{}`.
(Every value of a pool document is an object, so the isinstance guard always
passes on the first entry.) -/
def load_traj_pool (pool : Pool) : InstEntry :=
  match pool with
  | [] => emptyEntry
  | (_, d) :: _ => d

/-- The previous-approach context
`AlternativeStrategyOperator._generate_content` (alternative_strategy.py lines
136-163) derives for an instance and then embeds (truncated to 600 characters)
in the LLM prompt: `_get_latest_failed_approach(_load_traj_pool(workspace))`.
The instance being processed does not enter the computation. -/
def alternative_previous_approach (pool : Pool) (_instanceName : String) : String :=
  get_latest_failed_approach (load_traj_pool pool)

/- ### Iteration scheduler resume logic (SE/se_run.py) -/

/-- What the scheduler observes about one direct child of the workspace
directory: its name, whether it is a directory, and whether it contains the
two completion markers. -/
structure WorkspaceEntry where
  name : String
  isDir : Bool
  hasPredsJson : Bool
  hasExitStatusesYaml : Bool

/-- The value of a non-empty all-digit string. -/
def parseDigits : List Char → Option Nat
  | [] => none
  | s => s.foldl (fun acc c =>
      acc.bind (fun n => if c.isDigit then some (n * 10 + (c.toNat - 48)) else none))
      (some 0)

/-- Python `int(s)`, as used on the text after `iteration_`: an optional sign
followed by digits.  Python additionally accepts surrounding whitespace and
underscore digit grouping, which never occur in the `iteration_<i>` names the
scheduler itself creates. -/
def pyInt (s : List Char) : Option Int :=
  match s with
  | c :: rest =>
    if c = Char.ofNat 45 then (parseDigits rest).map (fun n => -(n : Int))
    else if c = Char.ofNat 43 then (parseDigits rest).map (fun n => (n : Int))
    else (parseDigits s).map (fun n => (n : Int))
  | [] => none

/-- Python `s.split(sep)` for a one-character separator. -/
def splitOnChar (sep : Char) : List Char → List (List Char)
  | [] => [[]]
  | c :: rest =>
    match splitOnChar sep rest with
    | [] => [[]]
    | w :: ws => if c = sep then [] :: w :: ws else (c :: w) :: ws

/-- Insertion into a sorted list (for `completed_iterations.sort()`). -/
def insSorted (a : Int) : List Int → List Int
  | [] => [a]
  | b :: t => if a ≤ b then a :: b :: t else b :: insSorted a t

/-- Python `list.sort()`. -/
def sortInts (l : List Int) : List Int := l.foldr insSorted []

/-- The completed-iteration numbers `check_existing_workspace` (se_run.py
lines 164-208) collects: a child counts as a completed iteration when it is a
directory named `iteration_<i>` (`int(name.split("_")[1])` parses) containing
`preds.json` or `run_batch_exit_statuses.yaml`.  The list is sorted in place
before being returned (`completed_iterations.sort()`). -/
def completed_iterations (entries : List WorkspaceEntry) : List Int :=
  sortInts (entries.filterMap (fun it =>
    if it.isDir && ("iteration_".data).isPrefixOf it.name.data then
      match pyInt ((splitOnChar (Char.ofNat 95) it.name.data).getD 1 []) with
      | some n =>
        if it.hasPredsJson || it.hasExitStatusesYaml then some n else none
      | none => none
    else none))

/-- Embedding of `check_existing_workspace`: returns `(workspace_exists,
completed_iterations)` where `workspace_exists` is `len(completed) > 0` (the
function reports an existing but marker-free workspace as absent). -/
def check_existing_workspace (entries : List WorkspaceEntry) : Bool × List Int :=
  (decide (0 < (completed_iterations entries).length), completed_iterations entries)

/-- Python `max(l)` on a non-empty list (`0` placeholder on `[]`, never
consulted: `main` only calls it under `if completed_iterations`). -/
def listMaxInt : List Int → Int
  | [] => 0
  | a :: t => t.foldl max a

/-- The start iteration the `--resume` branch of `main` computes (se_run.py
lines 475-483): `max(completed_iterations) + 1` when any iteration completed,
`1` otherwise. -/
def resume_start_iteration (completed : List Int) : Int :=
  if completed.isEmpty then 1 else listMaxInt completed + 1

/-- Embedding of `cleanup_incomplete_iteration` (se_run.py lines 197-208) on
the set of child directory names: `iteration_<n>` is removed if present. -/
def cleanup_incomplete_iteration (dirNames : List String) (iterationNum : Int) :
    List String :=
  dirNames.filter (fun d => d ≠ "iteration_" ++ toString iterationNum)

/-- Python `range(a, b)` over integers, ascending. -/
def pyRange (a b : Int) : List Int :=
  (List.range (b - a).toNat).map (fun k => a + Int.ofNat k)

/-- The iteration indices the main loop executes:
`for i in range(start_iteration, total_iterations + 1)` (se_run.py line 536). -/
def executed_iterations (startIteration : Int) (totalIterations : Nat) : List Int :=
  pyRange startIteration ((totalIterations : Int) + 1)

/- ### Instance data manager (SE/core/utils/instance_data_manager.py) -/

/-- The fix-related files of one instance directory: the contents of
`<id>.patch` and `<id>.pred` (`none` = the file does not exist). -/
structure InstanceFiles where
  patchFile : Option (List Char)
  predFile : Option (List Char)

/-- Embedding of `InstanceDataManager._read_file_safe`
(instance_data_manager.py lines 226-245): a missing file reads as `None`; an
existing file reads as its contents truncated to the first 50000 characters
(`max_length = 50000`).  OS-level read failures, which the method also maps to
`None`, are not modelled. -/
def read_file_safe (file : Option (List Char)) : Option (List Char) :=
  match file with
  | none => none
  | some content =>
    some (if content.length > 50000 then content.take 50000 else content)

/-- Embedding of `InstanceDataManager._load_patch_content`
(instance_data_manager.py lines 213-224): try `<id>.patch` first, then
`<id>.pred`; the first read that yields content wins.  This is the value
`get_instance_data` stores as `patch_content`. -/
def load_patch_content (files : InstanceFiles) : Option (List Char) :=
  match read_file_safe files.patchFile with
  | some content => some content
  | none =>
    match read_file_safe files.predFile with
    | some content => some content
    | none => none

/- ### Template operator pipeline (SE/operators/base.py) -/

/-- `str.strip()`: drop leading and trailing whitespace. -/
def pyStrip (s : List Char) : List Char :=
  ((s.dropWhile Char.isWhitespace).reverse.dropWhile Char.isWhitespace).reverse

/-- Index of the first occurrence of `pat` in `s`, if any. -/
def findSub (pat : List Char) : List Char → Option Nat
  | [] => if pat.isEmpty then some 0 else none
  | c :: rest =>
    if pat.isPrefixOf (c :: rest) then some 0
    else (findSub pat rest).map (fun i => i + 1)

/-- The text between the first `<pr_description>` tag and the first
`</pr_description>` tag after it, stripped of surrounding whitespace; `""`
when the tags are not found.  This is the value of
`re.search(r"<pr_description>\s*(.*?)\s*</pr_description>", text,
re.DOTALL).group(1).strip()` in `BaseOperator._extract_problem_statement`:
the leftmost match starts at the first opening tag (if any opening tag is
followed by a closing one, the first is), the lazy group ends at the first
closing tag after it, and the `\s*` wings plus `strip` trim whitespace. -/
def pr_description_between (text : List Char) : List Char :=
  match findSub ("<pr_description>".data) text with
  | none => []
  | some i =>
    let afterOpen := text.drop (i + ("<pr_description>".data).length)
    match findSub ("</pr_description>".data) afterOpen with
    | none => []
    | some j => pyStrip (afterOpen.take j)

/-- Embedding of `BaseOperator._extract_problem_statement` (base.py lines
165-199): take `Trajectory[1]`, require `role == "user"` and a `content`
key, flatten list-shaped content to its first `text`, then extract the
`<pr_description>` block.  Every failure (wrong shapes included — the source
wraps the body in a catch-all returning `""`) yields `""`. -/
def extract_problem_statement (trajectoryData : PyVal) : List Char :=
  match trajectoryData with
  | .pdict fields =>
    match pyGet fields ("Trajectory".data) with
    | some (.plist (_ :: userItem :: _)) =>
      match userItem with
      | .pdict f =>
        if (pyGet f ("role".data)) == some (PyVal.pstr ("user".data))
            && pyHasKey f ("content".data) then
          match pyGet f ("content".data) with
          | some (.plist (first :: _)) =>
            match first with
            | .pdict g =>
              match pyGet g ("text".data) with
              | some (.pstr t) => pr_description_between t
              | some _ => []
              | none => pr_description_between []
            | _ => []
          | some (.pstr t) => pr_description_between t
          | _ => []
        else []
      | _ => []
    | _ => []
  | _ => []

/-- What the shared pipeline sees of one discovered instance: its name and
the JSON document loaded from its `.tra` file (`_load_trajectory_data`
returns `{}` on a load failure, which is falsy like any empty dict). -/
structure OpInstance where
  instance_name : List Char
  trajectory_data : PyVal

/-- The subclass hook `_generate_content`, abstract here: it receives the
instance, the extracted problem statement and the trajectory data and either
returns content or raises (`Except.error`). -/
abbrev GenHook := OpInstance → List Char → PyVal → Except (List Char) (List Char)

/-- Embedding of `BaseOperator._process_single_instance` (base.py lines
201-235): skip on unloadable/falsy trajectory data, on an empty problem
statement, on empty generated content; a raising hook is caught and logged
(`return None`).  A successful instance yields `(instance_name, content)`. -/
def process_single_instance (gen : GenHook) (inst : OpInstance) :
    Option (List Char × List Char) :=
  if pyTruthy inst.trajectory_data = false then none
  else
    let problem := extract_problem_statement inst.trajectory_data
    if problem.isEmpty then none
    else
      match gen inst problem inst.trajectory_data with
      | .error _ => none
      | .ok content =>
        if content.isEmpty then none else some (inst.instance_name, content)

/-- The output directory `TemplateOperator._create_output_dir` uses:
`<workspace>/iteration_<current>/system_prompt`. -/
def template_output_dir (workspaceDir : List Char) (currentIteration : Nat) :
    List Char :=
  workspaceDir ++ ("/iteration_".data) ++ (toString currentIteration).data
    ++ ("/system_prompt".data)

/-- The `system_template` payload `TemplateOperator._create_yaml_content`
builds (base.py lines 297-322): the fixed preamble sentence, a blank line,
the operator's strategy marker with a colon, a blank line, the generated
content.  The written file is this payload wrapped in the fixed
`agent.templates.system_template` YAML structure by `yaml.dump`; the file is
modelled by its payload. -/
def template_yaml_payload (strategyMarker content : List Char) : List Char :=
  ("You are a helpful assistant that can interact with a terminal to solve software engineering tasks.".data)
    ++ ("\n\n".data) ++ strategyMarker ++ (":\n\n".data) ++ content

/-- Embedding of `TemplateOperator.process` (base.py lines 346-409) given the
discovered instances: no instances → `None`; otherwise run the per-instance
pipeline, write `<name>.yaml` for every success, and return
`{"instance_templates_dir": <output dir>}` (modelled as `some dir`) iff at
least one instance succeeded.  The first component is the returned
`OperatorResult`, the second the list of written files `(filename, payload)`.
Per-instance work runs on a thread pool; the set of successes and files is
order-independent and is modelled in discovery order. -/
def template_operator_process (gen : GenHook) (strategyMarker : List Char)
    (instances : List OpInstance) (workspaceDir : List Char)
    (currentIteration : Nat) :
    Option (List Char) × List (List Char × List Char) :=
  if instances.isEmpty then (none, [])
  else
    let results := instances.filterMap (process_single_instance gen)
    let files := results.map (fun r =>
      (r.1 ++ (".yaml".data), template_yaml_payload strategyMarker r.2))
    if results.isEmpty then (none, files)
    else (some (template_output_dir workspaceDir currentIteration), files)

/- ### Concrete inputs used by the closed theorems -/

/-- A two-instance pool: instance `inst-a` first, instance `inst-b` second,
each with one iteration summary carrying a distinct strategy. -/
def c1EntryA : InstEntry :=
  ⟨some "problem A", [(1, [("strategy", JVal.js "static analysis of the config loader")])]⟩

def c1EntryB : InstEntry :=
  ⟨some "problem B", [(1, [("strategy", JVal.js "runtime tracing of the scheduler")])]⟩

def c1Pool : Pool := [("inst-a", c1EntryA), ("inst-b", c1EntryB)]

/-- A summarizer that records the trajectory content it was given, so that two
calls with different contents store different summaries. -/
def c2Summarize : String → String → Nat → Summary :=
  fun tra _ _ => [("approach_summary", JVal.js tra)]

/-- Pool after one `add_iteration_summary` for `inst-a`, iteration 1. -/
def c2Pool1 : Pool :=
  add_iteration_summary c2Summarize [] "inst-a" 1 "tra-one" "patch-one" (some "problem text")

/-- The same pool after a second `add_iteration_summary` repeating instance
`inst-a` and iteration 1 with different artifact contents. -/
def c2Pool2 : Pool :=
  add_iteration_summary c2Summarize c2Pool1 "inst-a" 1 "tra-two" "patch-two" (some "problem text")

/-- The pool document before a save: the initial empty-object document. -/
def c3OldDoc : String := "\x7b\x7d"

/-- The pretty-printed document a save writes. -/
def c3NewDoc : String := "\x7b\n  \"inst-a\": \x7b\x7d\n\x7d"

/-- A pool with the problem of `inst-a` already recorded, for the problem
stability claim. -/
def c6Pool : Pool :=
  add_iteration_summary c2Summarize [] "inst-a" 1 "tra-one" "patch-one" (some "first problem")

/-- A `.patch` file of 50001 characters, above the 50000-character read bound. -/
def c7BigPatch : List Char := List.replicate 50001 (Char.ofNat 120)

/-- A small `.patch` file. -/
def c7SmallPatch : List Char := "diff --git a/x.py b/x.py".data

/-- Workspace children: iterations 1 and 2 completed (markers present), a
partial iteration 3 without marker, and the pool file. -/
def c5Entries : List WorkspaceEntry :=
  [⟨"iteration_1", true, true, false⟩,
   ⟨"iteration_2", true, false, true⟩,
   ⟨"iteration_3", true, false, false⟩,
   ⟨"traj.pool", false, false, false⟩]

/-- The child directory names of the same workspace. -/
def c5Dirs : List String := ["iteration_1", "iteration_2", "iteration_3"]

/-- A `.tra` document whose second turn is a user turn carrying a
`<pr_description>` block. -/
def c9Traj : PyVal :=
  PyVal.pdict [(("Trajectory".data), PyVal.plist
    [PyVal.pdict [(("role".data), PyVal.pstr ("system".data)),
                  (("content".data), PyVal.pstr ("setup".data))],
     PyVal.pdict [(("role".data), PyVal.pstr ("user".data)),
                  (("content".data),
                   PyVal.pstr ("<pr_description> Fix the overflow bug </pr_description>".data))]])]

/-- A generation hook that always returns fixed non-empty content. -/
def c9Gen : GenHook := fun _ _ _ => Except.ok ("Use bisection over the history".data)

def c9Instance : OpInstance := ⟨("astropy__astropy-1".data), c9Traj⟩

/- ### Helper lemmas on the pool model -/

theorem assocGet_cons (a : Nat × Summary) (t : List (Nat × Summary)) (k : Nat) :
    assocGet (a :: t) k = if a.1 = k then some a.2 else assocGet t k := by
  by_cases h : a.1 = k <;> simp [assocGet, List.find?_cons, h]

theorem assocGet_assocSet_self (l : List (Nat × Summary)) (k : Nat) (v : Summary) :
    assocGet (assocSet l k v) k = some v := by
  induction l with
  | nil => simp [assocSet, assocGet, List.find?]
  | cons a t ih =>
    by_cases h : a.1 = k
    · simp [assocSet, h, assocGet_cons]
    · simp [assocSet, h, assocGet_cons, ih]

theorem assocGet_assocSet_ne (l : List (Nat × Summary)) (kW kR : Nat) (v : Summary)
    (h : kW ≠ kR) : assocGet (assocSet l kW v) kR = assocGet l kR := by
  induction l with
  | nil => simp [assocSet, assocGet_cons, assocGet, h]
  | cons a t ih =>
    by_cases ha : a.1 = kW
    · simp [assocSet, ha, assocGet_cons, h]
    · simp [assocSet, ha, assocGet_cons, ih]

theorem poolGet_cons (e : String × InstEntry) (t : Pool) (x : String) :
    poolGet (e :: t) x = if e.1 = x then some e.2 else poolGet t x := by
  by_cases h : e.1 = x <;> simp [poolGet, List.find?_cons, h]

theorem poolGet_poolUpdate_ne (pool : Pool) (x y : String) (f : InstEntry → InstEntry)
    (h : y ≠ x) : poolGet (poolUpdate pool x f) y = poolGet pool y := by
  induction pool with
  | nil => rfl
  | cons e t ih =>
    have hx : ¬(x = y) := fun hc => h hc.symm
    by_cases he : e.1 = x
    · simp [poolUpdate, he, poolGet_cons, hx]
    · simp [poolUpdate, he, poolGet_cons, ih]

theorem poolGet_poolUpdate_self (pool : Pool) (x : String) (f : InstEntry → InstEntry) :
    poolGet (poolUpdate pool x f) x = (poolGet pool x).map f := by
  induction pool with
  | nil => rfl
  | cons e t ih =>
    by_cases he : e.1 = x
    · simp [poolUpdate, he, poolGet_cons]
    · simp [poolUpdate, he, poolGet_cons, ih]

theorem poolAny_eq_isSome (pool : Pool) (x : String) :
    (pool.any (fun e => e.1 == x)) = (poolGet pool x).isSome := by
  induction pool with
  | nil => rfl
  | cons e t ih =>
    by_cases he : e.1 = x
    · simp [he, poolGet_cons]
    · simp [he, poolGet_cons, ih]

theorem poolGet_append_single (pool : Pool) (y : String) (v : InstEntry) (x : String) :
    poolGet (pool ++ [(y, v)]) x =
      match poolGet pool x with
      | some e => some e
      | none => if y = x then some v else none := by
  induction pool with
  | nil => by_cases h : y = x <;> simp [poolGet_cons, poolGet, h]
  | cons e t ih =>
    by_cases he : e.1 = x
    · simp [List.cons_append, poolGet_cons, he]
    · simp [List.cons_append, poolGet_cons, he, ih]

/-- One-step description of `add_iteration_summary` at the level of
`poolGet`: the target instance ends at the update of its previous entry (the
fresh empty object when it was absent); every other instance is untouched. -/
theorem poolGet_add (summarize : String → String → Nat → Summary) (pool : Pool)
    (x : String) (i : Nat) (tra patch : String) (prob : Option String) (y : String) :
    poolGet (add_iteration_summary summarize pool x i tra patch prob) y =
      if y = x then
        some (updateEntry i (summarize tra patch i) prob ((poolGet pool x).getD emptyEntry))
      else poolGet pool y := by
  unfold add_iteration_summary
  by_cases hy : y = x
  · subst hy
    rw [if_pos rfl]
    by_cases hany : (pool.any (fun e => e.1 == y)) = true
    · rw [if_pos hany, poolGet_poolUpdate_self]
      rw [poolAny_eq_isSome] at hany
      cases hpg : poolGet pool y with
      | none => rw [hpg] at hany; simp at hany
      | some e => simp [hpg]
    · rw [if_neg hany, poolGet_poolUpdate_self, poolGet_append_single]
      rw [poolAny_eq_isSome] at hany
      cases hpg : poolGet pool y with
      | none => simp
      | some e => rw [hpg] at hany; simp at hany
  · rw [if_neg hy]
    by_cases hany : (pool.any (fun e => e.1 == x)) = true
    · rw [if_pos hany, poolGet_poolUpdate_ne _ _ _ _ hy]
    · rw [if_neg hany, poolGet_poolUpdate_ne _ _ _ _ hy, poolGet_append_single]
      have hx : ¬(x = y) := fun hc => hy hc.symm
      cases hpg : poolGet pool y with
      | none => simp [hx]
      | some e => simp

/- ### Claim theorems: trajectory pool -/

/-- C2 (counterexample): iteration summaries are not append-only under a
repeated `add_iteration_summary` for the same instance and iteration —
`pool_data[instance_name][str(iteration)] = summary` overwrites the entry
written by the first call: after the second call `pool["inst-a"]["1"]` holds
the summary of the second trajectory, not the one first written. -/
theorem C2_counterexample :
    poolIter c2Pool1 "inst-a" 1 = some [("approach_summary", JVal.js "tra-one")]
    ∧ poolIter c2Pool2 "inst-a" 1 = some [("approach_summary", JVal.js "tra-two")]
    ∧ [("approach_summary", JVal.js "tra-one")] ≠
        [("approach_summary", JVal.js "tra-two")] := by
  refine ⟨rfl, rfl, by decide⟩

/-- C2 (amended): once `pool[x][str(i)]` is written, no subsequent
`add_iteration_summary` for a DIFFERENT instance or a DIFFERENT iteration
mutates or deletes it; a repeated call for the same instance and iteration
overwrites the entry with the newly computed summary. -/
theorem C2_pool_append_only (summarize : String → String → Nat → Summary)
    (pool : Pool) (x : String) (i : Nat) (v : Summary)
    (h : poolIter pool x i = some v) :
    (∀ x' i' tra patch prob, x ≠ x' ∨ i ≠ i' →
        poolIter (add_iteration_summary summarize pool x' i' tra patch prob) x i = some v)
    ∧ (∀ tra patch prob,
        poolIter (add_iteration_summary summarize pool x i tra patch prob) x i
          = some (summarize tra patch i)) := by
  cases hpg : poolGet pool x with
  | none => rw [poolIter, hpg] at h; simp at h
  | some e =>
    rw [poolIter, hpg, Option.some_bind] at h
    constructor
    · intro x' i' tra patch prob hne
      rw [poolIter, poolGet_add]
      by_cases hx : x = x'
      · have hi : i ≠ i' := by
          rcases hne with hc | hc
          · exact absurd hx hc
          · exact hc
        rw [if_pos hx, ← hx, hpg, Option.getD_some, Option.some_bind]
        exact (assocGet_assocSet_ne e.summaries i' i (summarize tra patch i')
          (fun hc => hi hc.symm)).trans h
      · rw [if_neg hx, hpg, Option.some_bind]
        exact h
    · intro tra patch prob
      rw [poolIter, poolGet_add, if_pos rfl, hpg, Option.getD_some, Option.some_bind]
      exact assocGet_assocSet_self e.summaries i (summarize tra patch i)

/-- C2 (witness): a concrete preserved entry — a later call for another
instance and iteration leaves `pool["inst-a"]["1"]` exactly as written. -/
theorem C2_witness :
    poolIter (add_iteration_summary c2Summarize c2Pool1 "inst-b" 3 "t" "p" none)
        "inst-a" 1
      = some [("approach_summary", JVal.js "tra-one")] :=
  (C2_pool_append_only c2Summarize c2Pool1 "inst-a" 1
      [("approach_summary", JVal.js "tra-one")] rfl).1
    "inst-b" 3 "t" "p" none (Or.inl (by decide))

/-- C6 (confirmed): `pool[x]["problem"]` never changes after its first write —
`add_iteration_summary` inserts the `problem` argument only when the key is
absent (`if "problem" not in pool_data[instance_name] and problem_description`),
so any subsequent call, for any instance, iteration and problem argument,
preserves the recorded value. -/
theorem C6_problem_stability (summarize : String → String → Nat → Summary)
    (pool : Pool) (x : String) (v : String)
    (h : poolProblem pool x = some v) :
    ∀ x' i' tra patch prob,
      poolProblem (add_iteration_summary summarize pool x' i' tra patch prob) x
        = some v := by
  intro x' i' tra patch prob
  cases hpg : poolGet pool x with
  | none => rw [poolProblem, hpg] at h; simp at h
  | some e =>
    rw [poolProblem, hpg, Option.some_bind] at h
    rw [poolProblem, poolGet_add]
    by_cases hx : x = x'
    · rw [if_pos hx, ← hx, hpg, Option.getD_some, Option.some_bind]
      show (if (e.problem.isNone && optTruthy prob) = true then prob else e.problem)
        = some v
      rw [h]
      simp
    · rw [if_neg hx, hpg, Option.some_bind]
      exact h

/-- C6 (witness): the problem of `inst-a` stays `"first problem"` through a
later call that offers a different problem description. -/
theorem C6_witness :
    poolProblem (add_iteration_summary c2Summarize c6Pool "inst-a" 2 "t" "p"
        (some "second problem")) "inst-a"
      = some "first problem" :=
  C6_problem_stability c2Summarize c6Pool "inst-a" "first problem" rfl
    "inst-a" 2 "t" "p" (some "second problem")

/-- C10 (confirmed): `get_pool_stats().total_iterations` sums
`len(pool_data[x])` over all instances, and `len` counts the `problem` key
when present: the total equals the number of stored iteration summaries plus
one for every instance whose problem has been recorded. -/
theorem C10_pool_stats_total_iterations (pool : Pool) :
    (get_pool_stats pool).total_iterations
      = (pool.map (fun e => e.2.summaries.length)).sum
        + (pool.filter (fun e => e.2.problem.isSome)).length := by
  induction pool with
  | nil => rfl
  | cons a t ih =>
    have hstep : (get_pool_stats (a :: t)).total_iterations
        = entryLen a.2 + (get_pool_stats t).total_iterations := by
      simp [get_pool_stats]
    rw [hstep, ih]
    by_cases h : a.2.problem.isSome
    · simp only [List.map_cons, List.sum_cons, List.filter_cons, h, if_pos,
        List.length_cons, entryLen]
      omega
    · have hb : a.2.problem.isSome = false := by simpa using h
      simp only [List.map_cons, List.sum_cons, List.filter_cons, hb, entryLen]
      simp only [Bool.false_eq_true, if_false]
      omega

/- ### Claim theorems: pool persistence -/

/-- C3 (counterexample): `save_pool` is not atomic — while the concrete old
document is replaced by the concrete new document, the path passes through the
truncated state `""`, which is neither the previous complete document nor the
new one. -/
theorem C3_counterexample :
    "" ∈ save_pool_states c3OldDoc c3NewDoc
    ∧ "" ≠ c3OldDoc ∧ "" ≠ c3NewDoc := by
  refine ⟨by simp [save_pool_states], by decide, by decide⟩

/-- C3 (amended): `save_pool` performs a whole-file write of the UTF-8
pretty-printed document, but NOT atomically: it opens `traj.pool` itself in
write mode, which truncates it in place before the new document is written,
so whenever both documents are non-empty the path holds an intermediate state
that is neither the previous complete document nor the new one (there is no
write-then-rename in the method). -/
theorem C3_save_not_atomic (oldDoc newDoc : String)
    (h1 : oldDoc ≠ "") (h2 : newDoc ≠ "") :
    ∃ st ∈ save_pool_states oldDoc newDoc, st ≠ oldDoc ∧ st ≠ newDoc := by
  refine ⟨"", by simp [save_pool_states], fun hc => h1 hc.symm, fun hc => h2 hc.symm⟩

/-- C3 (witness): the intermediate state exists for the concrete documents. -/
theorem C3_witness :
    ∃ st ∈ save_pool_states c3OldDoc c3NewDoc, st ≠ c3OldDoc ∧ st ≠ c3NewDoc :=
  C3_save_not_atomic c3OldDoc c3NewDoc (by decide) (by decide)

/- ### Claim theorems: instance data manager -/

/-- C7 (counterexample): for a `<id>.patch` file of 50001 characters,
`patch_content` is NOT the contents of the file — `_read_file_safe` truncates
the read to the first 50000 characters. -/
theorem C7_counterexample :
    load_patch_content ⟨some c7BigPatch, none⟩ ≠ some c7BigPatch := by
  have hlen : c7BigPatch.length = 50001 := by
    rw [c7BigPatch, List.length_replicate]
  have h1 : load_patch_content ⟨some c7BigPatch, none⟩
      = some (c7BigPatch.take 50000) := by
    simp [load_patch_content, read_file_safe, hlen]
  rw [h1]
  intro hc
  have := congrArg (fun o => Option.map List.length o) hc
  simp [List.length_take, hlen] at this

/-- C7 (amended): whenever `<id>.patch` exists, `patch_content` equals its
contents truncated to the first 50000 characters — the full contents exactly
when the file has at most 50000 characters — regardless of whether `<id>.pred`
exists; `<id>.pred` is consulted only when `<id>.patch` yields no content. -/
theorem C7_patch_priority (c : List Char) (pred : Option (List Char)) :
    load_patch_content ⟨some c, pred⟩ = some (c.take 50000)
    ∧ (c.length ≤ 50000 → load_patch_content ⟨some c, pred⟩ = some c)
    ∧ load_patch_content ⟨none, pred⟩ = read_file_safe pred := by
  have hr : read_file_safe (some c) = some (c.take 50000) := by
    rw [read_file_safe]
    by_cases h : c.length > 50000
    · rw [if_pos h]
    · rw [if_neg h, List.take_of_length_le (by omega)]
  refine ⟨?_, ?_, ?_⟩
  · rw [load_patch_content]
    simp [hr]
  · intro hle
    rw [load_patch_content]
    simp [hr, List.take_of_length_le hle]
  · rw [load_patch_content]
    cases hp : read_file_safe pred <;> simp [hp, read_file_safe]

/-- C7 (witness): a small patch file is returned verbatim even when a `.pred`
file is also present. -/
theorem C7_witness :
    load_patch_content ⟨some c7SmallPatch, some ("pred".data)⟩ = some c7SmallPatch :=
  (C7_patch_priority c7SmallPatch (some ("pred".data))).2.1 (by decide)

/- ### Claim theorems: trajectory compressor -/

/-- C8 (confirmed): `_truncate_text` keeps a string unchanged when it is
shorter than 300 characters or when keeping the first
`max(30, min(150, floor(0.2 * len)))` characters plus the last
`max(30, min(100, floor(0.1 * len)))` characters plus the 19-character marker
would retain 80 percent or more of the original length; otherwise it returns
exactly those first characters, the literal marker, and those last characters
concatenated. -/
theorem C8_truncation_rule (s : List Char) :
    truncate_text s =
      if s.length < 300 ∨
          4 * s.length ≤
            5 * (max 30 (min 150 (s.length / 5)) + max 30 (min 100 (s.length / 10)) + 19)
      then s
      else s.take (max 30 (min 150 (s.length / 5))) ++ truncMarker
             ++ s.drop (s.length - max 30 (min 100 (s.length / 10))) := by
  have hm : truncMarker.length = 19 := rfl
  rw [truncate_text, firstCap, lastCap, hm]
  split_ifs with h1 h2 h3 h4 h5 <;> first | rfl | omega

set_option maxRecDepth 8192 in
/-- C4 (counterexample): a `.traj` whose history consists of a single `user`
turn with a 270-character content produces a `.tra` that carries
that 270-character string unchanged — a string field of the output longer than
269 characters, so the claimed 269-byte bound on every string of a `.tra` is
false. -/
theorem C4_counterexample :
    create_tra_trajectory c4HistoryDoc
      = [PyVal.pdict [(("role".data), PyVal.pstr ("user".data)),
                      (("content".data), PyVal.pstr (List.replicate 270 (Char.ofNat 97)))]]
    ∧ anyStringExceeds (create_tra_trajectory c4HistoryDoc) 269 = true := by
  refine ⟨rfl, rfl⟩

/-- C4 (amended): the 269-character bound holds exactly for the strings the
truncation step actually shortens: whenever `_truncate_text` changes a string,
the result is at most `first_cap + last_cap + 19 <= 269` characters.  String
fields the compressor copies unchanged (assistant `thought`, non-`tool`
`content`, and strings the heuristics keep whole) can exceed 269 characters,
as the counterexample shows. -/
theorem C4_truncated_strings_bounded (s : List Char) (h : truncate_text s ≠ s) :
    (truncate_text s).length ≤ firstCap s.length + lastCap s.length + 19
    ∧ (truncate_text s).length ≤ 269 := by
  by_cases h1 : s.length < 300
  · exact absurd (by rw [truncate_text, if_pos h1]) h
  · by_cases h2 : (firstCap s.length + lastCap s.length + truncMarker.length) * 5 ≥
        s.length * 4
    · exact absurd (by rw [truncate_text, if_neg h1, if_pos h2]) h
    · have ht : truncate_text s
          = s.take (firstCap s.length) ++ truncMarker
              ++ s.drop (s.length - lastCap s.length) := by
        rw [truncate_text, if_neg h1, if_neg h2]
      rw [ht]
      have hm : truncMarker.length = 19 := rfl
      simp only [List.length_append, List.length_take, List.length_drop, hm,
        firstCap, lastCap]
      constructor <;> omega

set_option maxRecDepth 8192 in
/-- C4 (witness): the 400-character string is genuinely shortened and the
result respects the bound. -/
theorem C4_witness :
    truncate_text c4LongString ≠ c4LongString
    ∧ (truncate_text c4LongString).length ≤ 269 :=
  ⟨by decide, (C4_truncated_strings_bounded c4LongString (by decide)).2⟩

/- ### Helper lemmas on Python max over a non-empty list -/

theorem le_foldl_max {α : Type} [LinearOrder α] (l : List α) (a : α) :
    a ≤ l.foldl max a := by
  induction l generalizing a with
  | nil => exact le_refl a
  | cons b t ih => exact le_trans (le_max_left a b) (ih (max a b))

theorem mem_le_foldl_max {α : Type} [LinearOrder α] (l : List α) (a b : α)
    (hb : b ∈ l) : b ≤ l.foldl max a := by
  induction l generalizing a with
  | nil => cases hb
  | cons c t ih =>
    rcases List.mem_cons.mp hb with rfl | hb2
    · exact le_trans (le_max_right a b) (le_foldl_max t (max a b))
    · exact ih (max a c) hb2

theorem foldl_max_mem {α : Type} [LinearOrder α] (l : List α) (a : α) :
    l.foldl max a = a ∨ l.foldl max a ∈ l := by
  induction l generalizing a with
  | nil => exact Or.inl rfl
  | cons b t ih =>
    rw [List.foldl_cons]
    rcases ih (max a b) with h | h
    · rcases max_choice a b with hc | hc
      · exact Or.inl (by rw [h, hc])
      · exact Or.inr (by rw [h, hc]; exact List.mem_cons_self b t)
    · exact Or.inr (List.mem_cons_of_mem b h)

/- ### Claim theorems: alternative operator -/

/-- C1 (counterexample): with a pool holding entries for the two instances
`inst-a` (first) and `inst-b` (second), the previous-approach context the
alternative operator derives while processing `inst-b` is the formatted latest
summary of `inst-a` — not the one of `inst-b`'s own trajectory-pool entry. -/
theorem C1_counterexample :
    alternative_previous_approach c1Pool "inst-b"
      = "Strategy: static analysis of the config loader"
    ∧ get_latest_failed_approach ((poolGet c1Pool "inst-b").getD emptyEntry)
      = "Strategy: runtime tracing of the scheduler"
    ∧ alternative_previous_approach c1Pool "inst-b"
      ≠ get_latest_failed_approach ((poolGet c1Pool "inst-b").getD emptyEntry) := by
  refine ⟨rfl, rfl, by decide⟩

/-- C1 (amended): for every pool with at least one instance entry, the
previous-approach context the alternative operator feeds to the LLM for ANY
processed instance is derived from the iteration summary with the largest
iteration key of the FIRST instance entry of the pool — `_load_traj_pool`
returns the first instance's data regardless of the instance being
processed. -/
theorem C1_first_entry_context (name : String) (e : InstEntry) (rest : Pool)
    (x : String) (h : e.summaries ≠ []) :
    maxIterKey e ∈ e.summaries.map (fun kv => kv.1)
    ∧ (∀ m ∈ e.summaries.map (fun kv => kv.1), m ≤ maxIterKey e)
    ∧ alternative_previous_approach ((name, e) :: rest) x
        = format_latest_approach ((assocGet e.summaries (maxIterKey e)).getD []) := by
  obtain ⟨eprob, esumm⟩ := e
  cases esumm with
  | nil => exact absurd rfl h
  | cons p t =>
    refine ⟨?_, ?_, ?_⟩
    · show (t.map (fun kv => kv.1)).foldl max p.1 ∈ p.1 :: t.map (fun kv => kv.1)
      rcases foldl_max_mem (t.map (fun kv => kv.1)) p.1 with h1 | h1
      · rw [h1]; exact List.mem_cons_self _ _
      · exact List.mem_cons_of_mem _ h1
    · intro m hm
      show m ≤ (t.map (fun kv => kv.1)).foldl max p.1
      rcases List.mem_cons.mp hm with rfl | h2
      · exact le_foldl_max _ _
      · exact mem_le_foldl_max _ _ _ h2
    · show get_latest_failed_approach ⟨eprob, p :: t⟩ = _
      rw [get_latest_failed_approach]
      have hfalsy : entryFalsy ⟨eprob, p :: t⟩ = false := by
        simp [entryFalsy]
      rw [hfalsy]
      rfl

/-- C1 (witness): the amended rule evaluated on the two-instance pool. -/
theorem C1_witness :
    alternative_previous_approach c1Pool "inst-b"
      = format_latest_approach
          ((assocGet c1EntryA.summaries (maxIterKey c1EntryA)).getD []) :=
  (C1_first_entry_context "inst-a" c1EntryA [("inst-b", c1EntryB)] "inst-b"
    (by decide)).2.2

/- ### Claim theorems: scheduler resume -/

/-- C5 (confirmed): on a workspace with at least one completed iteration,
`--resume` starts at `k + 1` where `k` is the largest `i` such that
`iteration_<i>/` contains `preds.json` or `run_batch_exit_statuses.yaml`
(`k` is a completed iteration and bounds all of them), deletes any partial
`iteration_<k+1>/` before running (all other directories are kept), and the
main loop `range(start, N + 1)` never re-runs an iteration in `1..k`. -/
theorem C5_resume_idempotence (entries : List WorkspaceEntry)
    (dirNames : List String) (totalIterations : Nat)
    (h : completed_iterations entries ≠ []) :
    (check_existing_workspace entries).1 = true
    ∧ listMaxInt (completed_iterations entries) ∈ completed_iterations entries
    ∧ (∀ c ∈ completed_iterations entries,
        c ≤ listMaxInt (completed_iterations entries))
    ∧ resume_start_iteration (completed_iterations entries)
        = listMaxInt (completed_iterations entries) + 1
    ∧ ("iteration_" ++ toString (listMaxInt (completed_iterations entries) + 1))
        ∉ cleanup_incomplete_iteration dirNames
            (listMaxInt (completed_iterations entries) + 1)
    ∧ (∀ d ∈ dirNames,
        d ≠ "iteration_" ++ toString (listMaxInt (completed_iterations entries) + 1) →
        d ∈ cleanup_incomplete_iteration dirNames
              (listMaxInt (completed_iterations entries) + 1))
    ∧ (∀ j ∈ executed_iterations
          (listMaxInt (completed_iterations entries) + 1) totalIterations,
        ¬(1 ≤ j ∧ j ≤ listMaxInt (completed_iterations entries))) := by
  refine ⟨?_, ?_, ?_, ?_, ?_, ?_, ?_⟩
  · show decide (0 < (completed_iterations entries).length) = true
    cases hc : completed_iterations entries with
    | nil => exact absurd hc h
    | cons a t => simp
  · cases hc : completed_iterations entries with
    | nil => exact absurd hc h
    | cons a t =>
      show t.foldl max a ∈ a :: t
      rcases foldl_max_mem t a with h1 | h1
      · rw [h1]; exact List.mem_cons_self _ _
      · exact List.mem_cons_of_mem _ h1
  · cases hc : completed_iterations entries with
    | nil => exact absurd hc h
    | cons a t =>
      intro c hcm
      show c ≤ t.foldl max a
      rcases List.mem_cons.mp hcm with rfl | h2
      · exact le_foldl_max _ _
      · exact mem_le_foldl_max _ _ _ h2
  · cases hc : completed_iterations entries with
    | nil => exact absurd hc h
    | cons a t => rw [resume_start_iteration]; simp
  · intro hmem
    have := (List.mem_filter.mp hmem).2
    simp at this
  · intro d hd hne
    exact List.mem_filter.mpr ⟨hd, by simpa using hne⟩
  · intro j hj
    rw [executed_iterations, pyRange] at hj
    obtain ⟨c, hc, hjc⟩ := List.mem_map.mp hj
    have hge : listMaxInt (completed_iterations entries) + 1 ≤ j := by
      rw [← hjc]
      exact le_add_of_nonneg_right (Int.natCast_nonneg c)
    intro hand
    omega

/-- C5 (witness): on a workspace with completed iterations 1 and 2 and a
partial iteration 3, resume starts at iteration 3, `iteration_3` is removed by
the cleanup, and no executed iteration of a 4-iteration plan lies in `1..2`. -/
theorem C5_witness :
    resume_start_iteration (completed_iterations c5Entries)
        = listMaxInt (completed_iterations c5Entries) + 1
    ∧ ("iteration_" ++ toString (listMaxInt (completed_iterations c5Entries) + 1))
        ∉ cleanup_incomplete_iteration c5Dirs
            (listMaxInt (completed_iterations c5Entries) + 1)
    ∧ resume_start_iteration (completed_iterations c5Entries) = 3 := by
  refine ⟨(C5_resume_idempotence c5Entries c5Dirs 4 (by decide)).2.2.2.1,
    (C5_resume_idempotence c5Entries c5Dirs 4 (by decide)).2.2.2.2.1, by decide⟩

/- ### Claim theorems: template operator pipeline -/

/-- C9 (confirmed): over a non-empty list of discovered instances, the
Template-family `process` returns `{"instance_templates_dir": <system_prompt
dir>}` exactly when at least one instance succeeded, after writing one YAML
per successful instance (`<name>.yaml` with the fixed preamble and the
strategy marker); with zero successes it returns `None`.  Per-instance
failures are absorbed inside `process_single_instance` (the embedding is a
total function), so they never raise out of `process`. -/
theorem C9_template_family_result (gen : GenHook)
    (strategyMarker workspaceDir : List Char) (currentIteration : Nat)
    (instances : List OpInstance) (h : instances ≠ []) :
    ((instances.filterMap (process_single_instance gen) ≠ []) →
      (template_operator_process gen strategyMarker instances workspaceDir
          currentIteration).1
        = some (template_output_dir workspaceDir currentIteration)
      ∧ (template_operator_process gen strategyMarker instances workspaceDir
          currentIteration).2
        = (instances.filterMap (process_single_instance gen)).map
            (fun r => (r.1 ++ (".yaml".data),
                       template_yaml_payload strategyMarker r.2)))
    ∧ ((instances.filterMap (process_single_instance gen) = []) →
      (template_operator_process gen strategyMarker instances workspaceDir
          currentIteration).1 = none
      ∧ (template_operator_process gen strategyMarker instances workspaceDir
          currentIteration).2 = []) := by
  have hne : instances.isEmpty = false := by
    cases instances with
    | nil => exact absurd rfl h
    | cons a t => rfl
  constructor
  · intro hs
    have hrs : (instances.filterMap (process_single_instance gen)).isEmpty = false := by
      cases hfm : instances.filterMap (process_single_instance gen) with
      | nil => exact absurd hfm hs
      | cons a t => rfl
    rw [template_operator_process]
    simp only [hne, hrs, Bool.false_eq_true, if_false]
    constructor <;> trivial
  · intro hs
    rw [template_operator_process]
    simp only [hne, hs, Bool.false_eq_true, if_false, List.isEmpty_nil, if_true,
      List.map_nil]
    constructor <;> trivial

/-- C9 (witness): one discovered instance with a well-formed `.tra` and a hook
returning non-empty content makes `process` return the `system_prompt`
directory of the current iteration. -/
theorem C9_witness :
    (template_operator_process c9Gen ("ALTERNATIVE SOLUTION STRATEGY".data)
        [c9Instance] ("/ws".data) 2).1
      = some (template_output_dir ("/ws".data) 2) :=
  ((C9_template_family_result c9Gen ("ALTERNATIVE SOLUTION STRATEGY".data)
      ("/ws".data) 2 [c9Instance] (List.cons_ne_nil _ _)).1 (by decide)).1

end SE
